import Mathlib

/-!
Shallow embedding of `src/bot.py`: the URL parser (`extract_slug_ep`), the
stream resolver (`get_m3u8_and_referer`), the ffmpeg command construction
(`remux_cmd`, from `remux_hls_to_mp4`), and the per-message handler
(`download_and_send`).  Python strings are Lean `String`s, Python string
methods are re-implemented over `List Char` with Python semantics, Python
exceptions are an explicit error type `PyErr`, and the handler's external
effects (HTTP, ffmpeg, upload) are oracle parameters.
-/

/-- The Python exceptions the script can raise, each carrying what `str(e)`
produces for it (the handler interpolates that text into its failure
message). -/
inductive PyErr where
  | indexError : PyErr
  | keyError : String → PyErr
  | runtimeError : String → PyErr
  | httpError : String → PyErr
  | remuxError : String → PyErr
  | uploadError : String → PyErr
  deriving DecidableEq, Repr

/-- `str(e)` for each exception; `str(IndexError(...))` from `parts[-2]` is
`"list index out of range"` and `str(KeyError(k))` is `"'k'"`. -/
def PyErr.message : PyErr → String
  | .indexError => "list index out of range"
  | .keyError k => "'" ++ k ++ "'"
  | .runtimeError m => m
  | .httpError m => m
  | .remuxError m => m
  | .uploadError m => m

/-- Python `str.split(sep)` for a one-character separator, on char lists:
splitting the empty string gives `[""]`, and separators at either end
produce empty fields.  The result is never the empty list. -/
def pySplitList (sep : Char) : List Char → List (List Char)
  | [] => [[]]
  | c :: cs =>
    if c == sep then [] :: pySplitList sep cs
    else
      match pySplitList sep cs with
      | [] => [[c]]
      | g :: gs => (c :: g) :: gs

/-- Python `str.split(sep)` on strings. -/
def pySplit (sep : Char) (s : String) : List String :=
  (pySplitList sep s.toList).map (fun l => String.mk l)

/-- Python `str.strip(ch)`: remove every copy of `ch` from both ends. -/
def pyStripList (ch : Char) (l : List Char) : List Char :=
  ((l.dropWhile (fun c => c == ch)).reverse.dropWhile (fun c => c == ch)).reverse

/-- Python `str.strip(ch)` on strings. -/
def pyStrip (ch : Char) (s : String) : String :=
  String.mk (pyStripList ch s.toList)

/-- Python `s.endswith(suffix)`. -/
def pyEndsWith (s suffix : String) : Bool :=
  suffix.toList.isSuffixOf s.toList

/-- Characters allowed after the first letter of a URL scheme
(`urllib.parse.scheme_chars`). -/
def isSchemeChar (c : Char) : Bool :=
  c.isAlphanum || c == '+' || c == '-' || c == '.'

/-- The scheme-splitting step of `urllib.parse.urlsplit`: when the text
before the first `:` is a letter followed by scheme characters, the scheme
and the colon are removed; otherwise the input is unchanged. -/
def dropScheme (l : List Char) : List Char :=
  match l.dropWhile (fun c => c != ':') with
  | [] => l
  | _ :: rest =>
    match l.takeWhile (fun c => c != ':') with
    | [] => l
    | c :: cs => if c.isAlpha && cs.all isSchemeChar then rest else l

/-- The netloc-splitting step of `urlsplit`: after a leading `//`, the
authority extends to the first `/`, `?` or `#`; the remainder (starting at
that delimiter) is what the path is parsed from. -/
def dropNetloc (l : List Char) : List Char :=
  match l with
  | '/' :: '/' :: rest => rest.dropWhile (fun c => c != '/' && c != '?' && c != '#')
  | _ => l

/-- Drop a `#fragment` suffix. -/
def stripFragment (l : List Char) : List Char :=
  l.takeWhile (fun c => c != '#')

/-- Drop a `?query` suffix. -/
def stripQuery (l : List Char) : List Char :=
  l.takeWhile (fun c => c != '?')

/-- Everything before the first `;`. -/
def takeUntilSemi (l : List Char) : List Char :=
  l.takeWhile (fun c => c != ';')

/-- `urllib.parse._splitparams`: remove a `;params` suffix from the last
path segment.  (`urlparse` only calls it when the path contains `;`, but on
a `;`-free path it is the identity, so applying it unconditionally agrees.) -/
def dropParams (l : List Char) : List Char :=
  if l.contains '/' then
    let rev := l.reverse
    (rev.dropWhile (fun c => c != '/')).reverse
      ++ takeUntilSemi (rev.takeWhile (fun c => c != '/')).reverse
  else takeUntilSemi l

/-- `urlparse(s).path`: strip the scheme, the `//authority`, the fragment,
the query, and the `;params` of the last segment; what remains is the path. -/
def urlparse_path (s : String) : String :=
  String.mk (dropParams (stripQuery (stripFragment (dropNetloc (dropScheme s.toList)))))

/-- `urlparse(hianime_url).path.strip("/").split("/")` — the `parts` list of
`extract_slug_ep`. -/
def urlSegments (hianime_url : String) : List String :=
  pySplit '/' (pyStrip '/' (urlparse_path hianime_url))

/-- `extract_slug_ep`: `parts[-2]` raises `IndexError` when there are fewer
than two segments (Python builds the tuple left to right, so that access
runs first); otherwise the result is
`(parts[-2], parts[-1].split("-")[-1])`. -/
def extract_slug_ep (hianime_url : String) : Except PyErr (String × String) :=
  let parts := urlSegments hianime_url
  if 2 ≤ parts.length then
    .ok (parts.getD (parts.length - 2) "", (pySplit '-' (parts.getLastD "")).getLastD "")
  else
    .error .indexError

/-- The parser output as the spec's section 4.1 words it: strip leading and
trailing `/` from the URL path, split on `/`; `contentSlug` is the
second-from-last segment and `episodeNumber` is the final `-`-delimited
token of the last segment.  Used to compare the code's parser against the
spec's description. -/
def spec_episode_ref (url : String) : String × String :=
  let segments := pySplit '/' (pyStrip '/' (urlparse_path url))
  (segments.getD (segments.length - 2) "",
   (pySplit '-' (segments.getLastD "")).getLastD "")

/-- One JSON source descriptor, keeping only the keys the script reads;
`none` models an absent key. -/
structure Source where
  type : Option String
  url : Option String
  deriving DecidableEq, Repr

/-- The loop guard `s.get("type") == "hls" or s.get("url", "").endswith(".m3u8")`. -/
def isHlsSource (s : Source) : Bool :=
  s.type == some "hls" || pyEndsWith (s.url.getD "") ".m3u8"

/-- The parts of the decoded JSON body the script reads: `data.sources`
(default `[]`) and `data.headers.Referer` (absent when either key is
missing). -/
structure ApiData where
  sources : List Source
  referer : Option String
  deriving DecidableEq, Repr

/-- The response-processing part of `get_m3u8_and_referer`: scan `sources`
for the first HLS match (`for`/`break`/`else`); on a match read `s["url"]`
(a `KeyError` when the key is absent), on no match raise
`RuntimeError("No HLS source found")`; then return the URL with the
optional Referer. -/
def get_m3u8_and_referer (data : ApiData) : Except PyErr (String × Option String) :=
  match data.sources.find? isHlsSource with
  | none => .error (.runtimeError "No HLS source found")
  | some s =>
    match s.url with
    | none => .error (.keyError "url")
    | some m3u8 => .ok (m3u8, data.referer)

/-- An outbound GET request: target URL plus query parameters in order. -/
structure HttpRequest where
  url : String
  params : List (String × String)
  deriving DecidableEq, Repr

/-- The request built by `requests.get` in `get_m3u8_and_referer`:
`{API_BASE}/episode/sources` with `animeEpisodeId`, `server`, `category`.
The `server` and `category` arguments default as in the Python signature. -/
def episode_sources_request (apiBase slug ep : String)
    (server : String := "hd-1") (category : String := "sub") : HttpRequest :=
  { url := apiBase ++ "/episode/sources",
    params := [("animeEpisodeId", slug ++ "?ep=" ++ ep),
               ("server", server), ("category", category)] }

/-- All HTTP requests one call of `get_m3u8_and_referer` issues. -/
def resolver_requests (apiBase slug ep : String)
    (server : String := "hd-1") (category : String := "sub") : List HttpRequest :=
  [episode_sources_request apiBase slug ep server category]

/-- The argument list `remux_hls_to_mp4` hands to `subprocess.run`: the
`-headers` pair is included only when `referer` is truthy (neither `None`
nor the empty string). -/
def remux_cmd (m3u8_url : String) (referer : Option String) (output_path : String) :
    List String :=
  let cmd := ["ffmpeg", "-y"]
  let cmd := cmd ++ (match referer with
    | some r => if r != "" then ["-headers", "Referer: " ++ r ++ "\r\n"] else []
    | none => [])
  cmd ++ ["-i", m3u8_url, "-c", "copy", output_path]

/-- `f"downloads/slug_ep.mp4"` — the output path the handler computes. -/
def out_file (slug ep : String) : String :=
  "downloads/" ++ slug ++ "_" ++ ep ++ ".mp4"

/-- What one run of the handler leaves behind: the text of the status
message after the final edit, the path handed to ffmpeg (`none` when the
remux step was never reached, in which case no output file exists), and
whether the video was sent. -/
structure HandlerResult where
  finalStatus : String
  outFile : Option String
  videoSent : Bool
  deriving DecidableEq, Repr

/-- The `except` branch's status text. -/
def failedText (e : PyErr) : String :=
  "❌ Failed: " ++ e.message

/-- `download_and_send` for one message: parse, resolve, remux, upload, in
that order, each step skipped once an earlier one raises; any exception is
caught by the single `except` and turns into a failure status edit.
`apiResult` stands for the HTTP fetch plus JSON decode (an `Except` so HTTP
and decode errors propagate), and `remuxResult` / `uploadResult` are
oracles for the two external effects. -/
def download_and_send (url : String) (apiResult : Except PyErr ApiData)
    (remuxResult : Except PyErr Unit) (uploadResult : Except PyErr Unit) :
    HandlerResult :=
  match extract_slug_ep url with
  | .error e => ⟨failedText e, none, false⟩
  | .ok (slug, ep) =>
    match apiResult.bind get_m3u8_and_referer with
    | .error e => ⟨failedText e, none, false⟩
    | .ok _ =>
      let out := out_file slug ep
      match remuxResult with
      | .error e => ⟨failedText e, some out, false⟩
      | .ok _ =>
        match uploadResult with
        | .error e => ⟨failedText e, some out, false⟩
        | .ok _ => ⟨"✅ Done!", some out, true⟩

example : extract_slug_ep "https://hianime.to/watch/steinsgate-3/episode-230" =
    .ok ("steinsgate-3", "230") := by rfl

example : extract_slug_ep "https://hianime.to/" = .error .indexError := by rfl

example : urlparse_path "https://hianime.to/watch/steinsgate-3/episode-230?x=1#f" =
    "/watch/steinsgate-3/episode-230" := by decide

/-! ### Helper lemmas about the embedded string operations -/

theorem pySplitList_ne_nil (sep : Char) (l : List Char) : pySplitList sep l ≠ [] := by
  induction l with
  | nil => simp [pySplitList]
  | cons c cs ih =>
    by_cases h : c == sep
    · simp [pySplitList, h]
    · simp only [pySplitList, h, if_neg]
      cases hm : pySplitList sep cs with
      | nil => simp
      | cons g gs => simp

theorem pySplitList_no_sep (sep : Char) (a : List Char)
    (h : ∀ c ∈ a, (c == sep) = false) : pySplitList sep a = [a] := by
  induction a with
  | nil => rfl
  | cons c t ih =>
    have hc : (c == sep) = false := h c (List.mem_cons_self c t)
    have ht := ih (fun x hx => h x (List.mem_cons_of_mem c hx))
    simp [pySplitList, hc, ht]

theorem pySplitList_append (sep : Char) (a b : List Char)
    (h : ∀ c ∈ a, (c == sep) = false) :
    pySplitList sep (a ++ sep :: b) = a :: pySplitList sep b := by
  induction a with
  | nil => simp [pySplitList]
  | cons c t ih =>
    have hc : (c == sep) = false := h c (List.mem_cons_self c t)
    have ht := ih (fun x hx => h x (List.mem_cons_of_mem c hx))
    simp [pySplitList, hc, ht]

theorem dropWhile_append_false (p : Char → Bool) (a b : List Char)
    (h1 : ∀ c ∈ a, p c = false) (h2 : b.dropWhile p = b) :
    (a ++ b).dropWhile p = a ++ b := by
  cases a with
  | nil => simpa using h2
  | cons c t =>
    have hc : p c = false := h1 c (List.mem_cons_self c t)
    simp [List.dropWhile_cons, hc]

theorem takeUntilSemi_of_no_semi (l : List Char) (h : ∀ c ∈ l, c ≠ ';') :
    takeUntilSemi l = l :=
  List.takeWhile_eq_self_iff.mpr (fun c hc => by simp [h c hc])

theorem dropParams_of_no_semi (l : List Char) (h : ∀ c ∈ l, c ≠ ';') :
    dropParams l = l := by
  have hsub : ∀ c ∈ (l.reverse.takeWhile (fun c => c != '/')).reverse, c ≠ ';' := by
    intro c hc
    rw [List.mem_reverse] at hc
    exact h c (List.mem_reverse.mp ((List.takeWhile_sublist _).subset hc))
  by_cases hc : l.contains '/' = true
  · simp only [dropParams, hc, if_true]
    rw [takeUntilSemi_of_no_semi _ hsub, ← List.reverse_append,
        List.takeWhile_append_dropWhile, List.reverse_reverse]
  · simp only [dropParams, hc, if_false]
    exact takeUntilSemi_of_no_semi l h

/-! ### C3, C6, C7, C8, C9, C10 -/

/-- C3: when no source satisfies the HLS predicate (the empty list
included), the resolver returns no stream URL but fails with the
`RuntimeError("No HLS source found")` condition. -/
theorem resolver_no_hls_raises (data : ApiData)
    (h : ∀ s ∈ data.sources, isHlsSource s = false) :
    get_m3u8_and_referer data = .error (.runtimeError "No HLS source found") := by
  have hf : data.sources.find? isHlsSource = none :=
    List.find?_eq_none.mpr (fun s hs => by simp [h s hs])
  simp [get_m3u8_and_referer, hf]

/-- Witness for C3 at the empty source list. -/
theorem resolver_no_hls_raises_witness :
    get_m3u8_and_referer ⟨[], none⟩ = .error (.runtimeError "No HLS source found") :=
  resolver_no_hls_raises ⟨[], none⟩ (by simp)

/-- C6: one call of the resolver issues exactly one GET, to
`apiBase ++ "/episode/sources"`, with `animeEpisodeId` set to
`slug ++ "?ep=" ++ ep` and with `server` and `category` at their defaults
`"hd-1"` and `"sub"`. -/
theorem resolver_issues_single_get (apiBase slug ep : String) :
    resolver_requests apiBase slug ep =
      [{ url := apiBase ++ "/episode/sources",
         params := [("animeEpisodeId", slug ++ "?ep=" ++ ep),
                    ("server", "hd-1"), ("category", "sub")] }] ∧
    (resolver_requests apiBase slug ep).length = 1 :=
  ⟨rfl, rfl⟩

/-- C7: whenever parsing and resolution succeed, the path the handler hands
to the remuxer is `downloads/slug_ep.mp4`, and for slug `steinsgate-3`,
episode `230` that path is exactly `downloads/steinsgate-3_230.mp4`. -/
theorem handler_output_path :
    (∀ url api remuxRes upRes slug ep v,
        extract_slug_ep url = .ok (slug, ep) →
        api.bind get_m3u8_and_referer = .ok v →
        (download_and_send url api remuxRes upRes).outFile =
          some ("downloads/" ++ slug ++ "_" ++ ep ++ ".mp4")) ∧
    out_file "steinsgate-3" "230" = "downloads/steinsgate-3_230.mp4" := by
  refine ⟨?_, rfl⟩
  intro url api remuxRes upRes slug ep v h1 h2
  cases remuxRes <;> cases upRes <;>
    simp [download_and_send, h1, h2, out_file]

/-- Witness for C7 at the end-to-end scenario input. -/
theorem handler_output_path_witness :
    (download_and_send "https://hianime.to/watch/steinsgate-3/episode-230"
        (.ok ⟨[⟨none, some "https://cdn/x.m3u8"⟩], none⟩) (.ok ()) (.ok ())).outFile =
      some "downloads/steinsgate-3_230.mp4" :=
  handler_output_path.1 _ _ _ _ "steinsgate-3" "230"
    ("https://cdn/x.m3u8", none) (by rfl) (by rfl)

/-- C8: the parser validates nothing — a URL whose path has fewer than two
segments raises `IndexError` instead of returning an `EpisodeRef`, and a
malformed but long-enough path yields a nonsensical slug/number pair. -/
theorem parser_no_validation :
    extract_slug_ep "https://hianime.to/" = .error .indexError ∧
    PyErr.message .indexError = "list index out of range" ∧
    extract_slug_ep "https://hianime.to/about/contact-page" = .ok ("about", "page") :=
  ⟨rfl, rfl, rfl⟩

/-- C9: a source whose `type` is `"hls"` but which lacks a `url` key passes
the selection predicate, and the subsequent `s["url"]` lookup raises
`KeyError("url")` — not the `RuntimeError("No HLS source found")` path. -/
theorem resolver_keyerror_on_missing_url :
    isHlsSource ⟨some "hls", none⟩ = true ∧
    get_m3u8_and_referer ⟨[⟨some "hls", none⟩], none⟩ = .error (.keyError "url") ∧
    PyErr.keyError "url" ≠ PyErr.runtimeError "No HLS source found" :=
  ⟨rfl, rfl, by decide⟩

/-- C10: an empty-string Referer fails the truthiness test `if referer:`,
so the ffmpeg command is exactly the one built for an absent Referer — in
particular it carries no `-headers` pair. -/
theorem remux_empty_referer_like_none (u p : String) :
    remux_cmd u (some "") p = remux_cmd u none p ∧
    remux_cmd u (some "") p = ["ffmpeg", "-y", "-i", u, "-c", "copy", p] :=
  ⟨rfl, rfl⟩

/-! ### C1, C4, C5 -/

theorem exists_first_match {α : Type} (p : α → Bool) (l : List α)
    (hex : ∃ x ∈ l, p x = true) :
    ∃ i, ∃ hi : i < l.length, p (l.get ⟨i, hi⟩) = true ∧
      (∀ j (hj : j < i), p (l.get ⟨j, hj.trans hi⟩) = false) ∧
      l.find? p = some (l.get ⟨i, hi⟩) := by
  induction l with
  | nil => simp at hex
  | cons a t ih =>
    by_cases hpa : p a = true
    · refine ⟨0, by simp, hpa, ?_, by simp [List.find?_cons, hpa]⟩
      intro j hj
      exact absurd hj (Nat.not_lt_zero j)
    · have hpa' : p a = false := by
        cases h : p a with
        | false => rfl
        | true => exact absurd h hpa
      have hex' : ∃ x ∈ t, p x = true := by
        obtain ⟨x, hx, hpx⟩ := hex
        rcases List.mem_cons.mp hx with rfl | hxt
        · exact absurd hpx hpa
        · exact ⟨x, hxt, hpx⟩
      obtain ⟨i, hi, h1, h2, h3⟩ := ih hex'
      refine ⟨i + 1, Nat.succ_lt_succ hi, by simpa using h1, ?_, ?_⟩
      · intro j hj
        cases j with
        | zero => simpa using hpa'
        | succ j' => simpa using h2 j' (Nat.lt_of_succ_lt_succ hj)
      · simp [List.find?_cons, hpa', h3]

/-- Counterexample to C1 as stated: this response's source list contains a
source matching the HLS predicate (`type` is `"hls"`), yet the resolver
does not return that source's URL — the source has no `url` key and the
lookup raises `KeyError` instead. -/
theorem resolver_hls_match_without_url :
    isHlsSource ⟨some "hls", none⟩ = true ∧
    get_m3u8_and_referer ⟨[⟨some "hls", none⟩], some "http://r/"⟩ =
      .error (.keyError "url") :=
  ⟨rfl, rfl⟩

/-- C1 (amended): for a response whose sources all carry a `url` key, when
at least one source matches the HLS predicate the resolver returns the URL
of the first such source in list order, and in particular for a response
with exactly one HLS-flagged source it returns that source's URL. -/
theorem resolver_returns_first_hls :
    (∀ data : ApiData, (∀ s ∈ data.sources, s.url.isSome) →
        (∃ s ∈ data.sources, isHlsSource s = true) →
        ∃ i, ∃ hi : i < data.sources.length,
          isHlsSource (data.sources.get ⟨i, hi⟩) = true ∧
          (∀ j (hj : j < i), isHlsSource (data.sources.get ⟨j, hj.trans hi⟩) = false) ∧
          get_m3u8_and_referer data =
            .ok ((data.sources.get ⟨i, hi⟩).url.getD "", data.referer)) ∧
    (∀ src referer, isHlsSource src = true → src.url.isSome →
        get_m3u8_and_referer ⟨[src], referer⟩ = .ok (src.url.getD "", referer)) := by
  constructor
  · intro data hurl hex
    obtain ⟨i, hi, h1, h2, h3⟩ := exists_first_match isHlsSource data.sources hex
    refine ⟨i, hi, h1, h2, ?_⟩
    obtain ⟨u, hu⟩ :=
      Option.isSome_iff_exists.mp (hurl _ (List.get_mem data.sources i hi))
    rw [List.get_eq_getElem] at hu
    simp [get_m3u8_and_referer, h3, hu, List.get_eq_getElem]
  · intro src referer h1 h2
    obtain ⟨u, hu⟩ := Option.isSome_iff_exists.mp h2
    simp [get_m3u8_and_referer, List.find?_cons, h1, hu]

/-- Witness for C1 at a singleton HLS source with a URL. -/
theorem resolver_returns_first_hls_witness :
    get_m3u8_and_referer
        ⟨[⟨some "hls", some "https://cdn/x.m3u8"⟩], some "https://megacloud.tv/"⟩ =
      .ok ("https://cdn/x.m3u8", some "https://megacloud.tv/") :=
  resolver_returns_first_hls.2 ⟨some "hls", some "https://cdn/x.m3u8"⟩
    (some "https://megacloud.tv/") rfl rfl

/-- Counterexample to C4 as stated: the resolver result carries the Referer
value `""`, yet the command line contains no header argument. -/
theorem remux_present_empty_referer_no_header :
    remux_cmd "https://cdn/x.m3u8" (some "") "downloads/a.mp4" =
      ["ffmpeg", "-y", "-i", "https://cdn/x.m3u8", "-c", "copy", "downloads/a.mp4"] ∧
    "-headers" ∉ remux_cmd "https://cdn/x.m3u8" (some "") "downloads/a.mp4" :=
  ⟨rfl, by decide⟩

/-- C4 (amended): with a present non-empty Referer the command line is
exactly the base command with the pair `-headers "Referer: r\r\n"`
attached, and with an absent Referer it is exactly the base command, with
no header argument. -/
theorem remux_header_iff_nonempty_referer (u p : String) :
    (∀ r : String, r ≠ "" →
        remux_cmd u (some r) p =
          ["ffmpeg", "-y", "-headers", "Referer: " ++ r ++ "\r\n",
           "-i", u, "-c", "copy", p]) ∧
    remux_cmd u none p = ["ffmpeg", "-y", "-i", u, "-c", "copy", p] := by
  refine ⟨?_, rfl⟩
  intro r hr
  have hb : (r != "") = true := by simpa using hr
  simp [remux_cmd, hb]

/-- Witness for C4 at a concrete stream URL, Referer and output path. -/
theorem remux_header_iff_nonempty_referer_witness :
    remux_cmd "https://cdn/x.m3u8" (some "https://megacloud.tv/") "downloads/a.mp4" =
      ["ffmpeg", "-y", "-headers", "Referer: https://megacloud.tv/\r\n",
       "-i", "https://cdn/x.m3u8", "-c", "copy", "downloads/a.mp4"] :=
  (remux_header_iff_nonempty_referer "https://cdn/x.m3u8" "downloads/a.mp4").1
    "https://megacloud.tv/" (by decide)

/-- C5: whichever stage raises — parsing, resolution, remuxing or
uploading — the handler catches the exception and its final status edit is
the failure text built from the exception's own text; for the
empty-sources scenario the final status is exactly
`"❌ Failed: No HLS source found"` (so it contains `"Failed"` and the
literal resolver message), no path was ever handed to the remuxer (hence no
output file), and no video is sent. -/
theorem handler_reports_failures :
    (∀ url api remuxRes upRes e, extract_slug_ep url = .error e →
        (download_and_send url api remuxRes upRes).finalStatus =
          "❌ Failed: " ++ e.message) ∧
    (∀ url api remuxRes upRes e slug ep, extract_slug_ep url = .ok (slug, ep) →
        api.bind get_m3u8_and_referer = .error e →
        (download_and_send url api remuxRes upRes).finalStatus =
          "❌ Failed: " ++ e.message) ∧
    (∀ url api upRes e slug ep v, extract_slug_ep url = .ok (slug, ep) →
        api.bind get_m3u8_and_referer = .ok v →
        (download_and_send url api (.error e) upRes).finalStatus =
          "❌ Failed: " ++ e.message) ∧
    (∀ url api e slug ep v, extract_slug_ep url = .ok (slug, ep) →
        api.bind get_m3u8_and_referer = .ok v →
        (download_and_send url api (.ok ()) (.error e)).finalStatus =
          "❌ Failed: " ++ e.message) ∧
    (∀ url slug ep referer remuxRes upRes, extract_slug_ep url = .ok (slug, ep) →
        download_and_send url (.ok ⟨[], referer⟩) remuxRes upRes =
          ⟨"❌ Failed: No HLS source found", none, false⟩) := by
  refine ⟨?_, ?_, ?_, ?_, ?_⟩
  · intro url api remuxRes upRes e h1
    simp [download_and_send, h1, failedText]
  · intro url api remuxRes upRes e slug ep h1 h2
    simp [download_and_send, h1, h2, failedText]
  · intro url api upRes e slug ep v h1 h2
    simp [download_and_send, h1, h2, failedText]
  · intro url api e slug ep v h1 h2
    simp [download_and_send, h1, h2, failedText]
  · intro url slug ep referer remuxRes upRes h1
    simp [download_and_send, h1, Except.bind, get_m3u8_and_referer, List.find?,
      failedText, PyErr.message]

/-- Witness for C5 at the empty-sources scenario. -/
theorem handler_reports_failures_witness :
    download_and_send "https://hianime.to/watch/steinsgate-3/episode-230"
        (.ok ⟨[], none⟩) (.ok ()) (.ok ()) =
      ⟨"❌ Failed: No HLS source found", none, false⟩ :=
  handler_reports_failures.2.2.2.2 "https://hianime.to/watch/steinsgate-3/episode-230"
    "steinsgate-3" "230" none (.ok ()) (.ok ()) (by rfl)

/-! ### C2: the parser on well-formed episode URLs -/

theorem urlSegments_eq (u : String) :
    urlSegments u = (pySplitList '/' (pyStripList '/' (dropParams (stripQuery (stripFragment
      (dropNetloc (dropScheme u.toList))))))).map (fun l => String.mk l) := rfl

theorem dropScheme_https (r : List Char) :
    dropScheme ("https:".toList ++ r) = r := rfl

theorem dropNetloc_hianime (r : List Char) :
    dropNetloc ("//hianime.to/".toList ++ r) = '/' :: r := rfl

theorem urlSegments_watch_episode (slug n : String)
    (hslug : ∀ c ∈ slug.toList, c ≠ '/' ∧ c ≠ '?' ∧ c ≠ '#' ∧ c ≠ ';')
    (hep : ∀ c ∈ n.toList, c ≠ '/' ∧ c ≠ '?' ∧ c ≠ '#' ∧ c ≠ ';') :
    urlSegments ("https://hianime.to/watch/" ++ slug ++ "/episode-" ++ n) =
      ["watch", slug, String.mk ("episode-".toList ++ n.toList)] := by
  have hu : ("https://hianime.to/watch/" ++ slug ++ "/episode-" ++ n).toList
      = "https:".toList ++ ("//hianime.to/".toList ++ ("watch/".toList
          ++ (slug.toList ++ ('/' :: ("episode-".toList ++ n.toList))))) := by
    have h0 : ("https://hianime.to/watch/" ++ slug ++ "/episode-" ++ n).toList
        = "https://hianime.to/watch/".toList
            ++ (slug.toList ++ ("/episode-".toList ++ n.toList)) := by
      simp [String.toList]
    have h1 : "https://hianime.to/watch/".toList
        = "https:".toList ++ ("//hianime.to/".toList ++ "watch/".toList) := by decide
    have h2 : "/episode-".toList = '/' :: "episode-".toList := by decide
    rw [h0, h1, h2]
    simp [List.append_assoc]
  rw [urlSegments_eq, hu, dropScheme_https, dropNetloc_hianime]
  have hmem : ∀ c ∈ ('/' :: ("watch/".toList
      ++ (slug.toList ++ ('/' :: ("episode-".toList ++ n.toList))))),
      c ≠ '#' ∧ c ≠ '?' ∧ c ≠ ';' := by
    intro c hc
    simp only [List.mem_cons, List.mem_append] at hc
    rcases hc with rfl | hc | hc | rfl | hc | hc
    · exact ⟨by decide, by decide, by decide⟩
    · exact (by decide : ∀ c ∈ "watch/".toList, c ≠ '#' ∧ c ≠ '?' ∧ c ≠ ';') c hc
    · exact ⟨(hslug c hc).2.2.1, (hslug c hc).2.1, (hslug c hc).2.2.2⟩
    · exact ⟨by decide, by decide, by decide⟩
    · exact (by decide : ∀ c ∈ "episode-".toList, c ≠ '#' ∧ c ≠ '?' ∧ c ≠ ';') c hc
    · exact ⟨(hep c hc).2.2.1, (hep c hc).2.1, (hep c hc).2.2.2⟩
  have hfrag : stripFragment ('/' :: ("watch/".toList
      ++ (slug.toList ++ ('/' :: ("episode-".toList ++ n.toList)))))
      = '/' :: ("watch/".toList ++ (slug.toList ++ ('/' :: ("episode-".toList ++ n.toList)))) :=
    List.takeWhile_eq_self_iff.mpr (fun c hc => by simpa using (hmem c hc).1)
  have hquery : stripQuery ('/' :: ("watch/".toList
      ++ (slug.toList ++ ('/' :: ("episode-".toList ++ n.toList)))))
      = '/' :: ("watch/".toList ++ (slug.toList ++ ('/' :: ("episode-".toList ++ n.toList)))) :=
    List.takeWhile_eq_self_iff.mpr (fun c hc => by simpa using (hmem c hc).2.1)
  have hparams : dropParams ('/' :: ("watch/".toList
      ++ (slug.toList ++ ('/' :: ("episode-".toList ++ n.toList)))))
      = '/' :: ("watch/".toList ++ (slug.toList ++ ('/' :: ("episode-".toList ++ n.toList)))) :=
    dropParams_of_no_semi _ (fun c hc => (hmem c hc).2.2)
  rw [hfrag, hquery, hparams]
  have hlead : ('/' :: ("watch/".toList
      ++ (slug.toList ++ ('/' :: ("episode-".toList ++ n.toList))))).dropWhile
        (fun c => c == '/')
      = "watch/".toList ++ (slug.toList ++ ('/' :: ("episode-".toList ++ n.toList))) := rfl
  have hrevshape : ("watch/".toList
      ++ (slug.toList ++ ('/' :: ("episode-".toList ++ n.toList)))).reverse
      = n.toList.reverse ++ ("episode-".toList.reverse
          ++ ('/' :: (slug.toList.reverse ++ "watch/".toList.reverse))) := by
    simp [List.reverse_append, List.append_assoc]
  have hb2 : ("episode-".toList.reverse
      ++ ('/' :: (slug.toList.reverse ++ "watch/".toList.reverse))).dropWhile
        (fun c => c == '/')
      = "episode-".toList.reverse ++ ('/' :: (slug.toList.reverse ++ "watch/".toList.reverse)) :=
    rfl
  have ha : ∀ c ∈ n.toList.reverse, ((c == '/') : Bool) = false := fun c hc =>
    beq_eq_false_iff_ne.mpr (hep c (List.mem_reverse.mp hc)).1
  have htrail := dropWhile_append_false _ _ _ ha hb2
  have hstrip : pyStripList '/' ('/' :: ("watch/".toList
      ++ (slug.toList ++ ('/' :: ("episode-".toList ++ n.toList)))))
      = "watch/".toList ++ (slug.toList ++ ('/' :: ("episode-".toList ++ n.toList))) := by
    unfold pyStripList
    rw [hlead, hrevshape, htrail, ← hrevshape, List.reverse_reverse]
  rw [hstrip]
  have hbody2 : "watch/".toList ++ (slug.toList ++ ('/' :: ("episode-".toList ++ n.toList)))
      = "watch".toList ++ '/' :: (slug.toList ++ ('/' :: ("episode-".toList ++ n.toList))) := rfl
  have hs1 := pySplitList_append '/' "watch".toList
    (slug.toList ++ ('/' :: ("episode-".toList ++ n.toList))) (by decide)
  have hsc : ∀ c ∈ slug.toList, ((c == '/') : Bool) = false := fun c hc =>
    beq_eq_false_iff_ne.mpr (hslug c hc).1
  have hs2 := pySplitList_append '/' slug.toList ("episode-".toList ++ n.toList) hsc
  have hs3 : pySplitList '/' ("episode-".toList ++ n.toList)
      = [("episode-".toList ++ n.toList)] := by
    apply pySplitList_no_sep
    intro c hc
    rcases List.mem_append.mp hc with hc | hc
    · exact (by decide : ∀ c ∈ "episode-".toList, ((c == '/') : Bool) = false) c hc
    · exact beq_eq_false_iff_ne.mpr (hep c hc).1
  rw [hbody2, hs1, hs2, hs3]
  rfl

/-- C2: whenever the URL path yields at least two segments after stripping
and splitting, `extract_slug_ep` returns exactly what the spec's algorithm
describes (second-from-last segment, final `-`-token of the last segment);
and for every URL of the form
`https://hianime.to/watch/slug/episode-n` whose slug and episode are free
of URL metacharacters and whose episode contains no `-`, it returns
exactly `(slug, n)`. -/
theorem parser_returns_slug_and_episode :
    (∀ url, 2 ≤ (urlSegments url).length →
        extract_slug_ep url = .ok (spec_episode_ref url)) ∧
    (∀ slug n : String,
        (∀ c ∈ slug.toList, c ≠ '/' ∧ c ≠ '?' ∧ c ≠ '#' ∧ c ≠ ';') →
        (∀ c ∈ n.toList, c ≠ '/' ∧ c ≠ '?' ∧ c ≠ '#' ∧ c ≠ ';' ∧ c ≠ '-') →
        extract_slug_ep ("https://hianime.to/watch/" ++ slug ++ "/episode-" ++ n) =
          .ok (slug, n)) := by
  constructor
  · intro url h
    unfold extract_slug_ep spec_episode_ref
    rw [if_pos]
    · rfl
    · exact h
  · intro slug n hslug hep
    have hseg := urlSegments_watch_episode slug n hslug
      (fun c hc => ⟨(hep c hc).1, (hep c hc).2.1, (hep c hc).2.2.1, (hep c hc).2.2.2.1⟩)
    have hns := pySplitList_no_sep '-' n.toList
      (fun c hc => beq_eq_false_iff_ne.mpr (hep c hc).2.2.2.2)
    have hsplit : pySplit '-' (String.mk ("episode-".toList ++ n.toList))
        = ["episode", String.mk n.toList] := by
      unfold pySplit
      have ht : (String.mk ("episode-".toList ++ n.toList)).toList
          = "episode".toList ++ '-' :: n.toList := rfl
      rw [ht, pySplitList_append '-' "episode".toList n.toList (by decide), hns]
      rfl
    have key : ∀ u : String,
        urlSegments u = ["watch", slug, String.mk ("episode-".toList ++ n.toList)] →
        extract_slug_ep u = .ok (slug, n) := by
      intro u hu2
      unfold extract_slug_ep
      rw [hu2]
      rw [if_pos (by simp)]
      have hlast : (["watch", slug,
          String.mk ("episode-".toList ++ n.toList)] : List String).getLastD ""
          = String.mk ("episode-".toList ++ n.toList) := rfl
      rw [hlast, hsplit]
      rfl
    exact key _ hseg

/-- Witness for C2 at slug `steinsgate-3`, episode `230`. -/
theorem parser_returns_slug_and_episode_witness :
    extract_slug_ep ("https://hianime.to/watch/" ++ "steinsgate-3" ++ "/episode-" ++ "230") =
      .ok ("steinsgate-3", "230") :=
  parser_returns_slug_and_episode.2 "steinsgate-3" "230" (by decide) (by decide)
